import Mathlib

/-!
Shallow embedding of the shenron SSH session runtime (verification of the
core claims against the source under src/).

Modelled files:
- src/src/session/pty.rs, kind.rs, event.rs, core.rs  (Session facade)
- src/src/server/russh.rs                              (channel state machine)
- src/src/auth/config.rs                               (auth configuration)
- src/src/middleware/chain.rs                          (middleware chain)

Modelling conventions:
- Rust u32 fields (pty sizes, exit codes) are modelled as Nat: the code
  performs no arithmetic on them, so overflow is not observable.
- The transport channel handle (russh Channel<Msg>) is opaque to the core;
  it is modelled as a structure carrying an identifier.  Wire-level effects
  of do_exit (exit_status, eof, close) are modelled as an emitted list of
  WireAction values, in emission order.
- HashMap<String, String> is modelled as a function String -> Option String
  (insertion order is not observable in the source either).
- Async functions are modelled as pure state-passing functions; the event
  pump consumes an explicit list of incoming ChannelMsg values, and end of
  stream (channel closed) is the empty list.
- The exec payload is modelled after UTF-8 lossy decoding, as a String:
  no claim concerns the byte-level decoding itself.
-/

namespace Shenron

/-- Opaque transport channel handle (russh Channel of Msg), identified by a tag. -/
structure Channel where
  id : Nat
deriving DecidableEq

/-- src/src/session/pty.rs: PtySize.  u32 fields modelled as Nat. -/
structure PtySize where
  width : Nat
  height : Nat
  pixel_width : Nat
  pixel_height : Nat
deriving DecidableEq

/-- src/src/session/mod.rs re-exports russh Sig as Signal; modelled opaquely by name. -/
structure Signal where
  name : String
deriving DecidableEq

/-- src/src/session/kind.rs: SessionKind.  The in-tree kind.rs lists Pty, Exec and
Shell; the Subsystem variant is required by session/core.rs (subsystem) and
server/russh.rs (subsystem_request), which construct and match it, so it is
included here. -/
inductive SessionKind where
  | Pty (term : String) (size : PtySize)
  | Exec (command : String)
  | Shell
  | Subsystem (name : String)
deriving DecidableEq

/-- src/src/session/event.rs: Event. -/
inductive Event where
  | Input (data : List Nat)
  | Resize (size : PtySize)
  | Signal (signal : Signal)
  | Eof
deriving DecidableEq

/-- Incoming russh ChannelMsg values as observed by Session.next.  The four
variants the pump reacts to are explicit; every other protocol message the
pump skips is collapsed into the Other constructor. -/
inductive ChannelMsg where
  | Data (data : List Nat)
  | WindowChange (col_width row_height pix_width pix_height : Nat)
  | Signal (signal : Signal)
  | Eof
  | Other
deriving DecidableEq

/-- Wire-level channel actions emitted by finalization (session/core.rs do_exit). -/
inductive WireAction where
  | exit_status (code : Nat)
  | eof
  | close
deriving DecidableEq

/-- src/src/error.rs: Error.  Payloads are modelled as their display strings. -/
inductive Error where
  | Ssh (msg : String)
  | Keys (msg : String)
  | Io (msg : String)
  | Protocol (msg : String)
  | Config (msg : String)
  | Int (msg : String)
deriving DecidableEq

/-- HashMap String String, modelled extensionally. -/
def EnvMap : Type := String → Option String

/-- HashMap::new. -/
def emptyEnv : EnvMap := fun _ => none

/-- HashMap::insert (overwrites an existing binding). -/
def insertEnv (m : EnvMap) (k v : String) : EnvMap :=
  fun x => if x = k then some v else m x

/-- Peer socket address (std SocketAddr), modelled as ip octets plus port. -/
structure SocketAddr where
  ip : List Nat
  port : Nat
deriving DecidableEq

/-- src/src/session/core.rs: Session.  The channel field keeps exclusive
ownership of the transport channel; exit_code is a u32 modelled as Nat. -/
structure Session where
  channel : Channel
  kind : SessionKind
  user : String
  env : EnvMap
  remote_addr : SocketAddr
  exit_code : Option Nat

/-- Session::new (session/core.rs): exit_code starts absent. -/
def Session.new (channel : Channel) (kind : SessionKind) (user : String)
    (env : EnvMap) (remote_addr : SocketAddr) : Session :=
  { channel := channel, kind := kind, user := user, env := env,
    remote_addr := remote_addr, exit_code := none }

/-- Session::next (session/core.rs): pump the channel message stream.  Data,
WindowChange, Signal and Eof produce events (WindowChange also refreshes the
cached pty size when kind is Pty); every other message is skipped and the
loop continues.  The channel yielding no further message (wait returning
None, i.e. the channel closed) is the empty list and produces none. -/
def Session.next (s : Session) : List ChannelMsg → Option (Event × Session × List ChannelMsg)
  | [] => none
  | msg :: rest =>
    match msg with
    | ChannelMsg.Data data => some (Event.Input data, s, rest)
    | ChannelMsg.WindowChange col_width row_height pix_width pix_height =>
      let new_size : PtySize :=
        { width := col_width, height := row_height,
          pixel_width := pix_width, pixel_height := pix_height }
      let s2 :=
        match s.kind with
        | SessionKind.Pty term _ => { s with kind := SessionKind.Pty term new_size }
        | _ => s
      some (Event.Resize new_size, s2, rest)
    | ChannelMsg.Signal signal => some (Event.Signal signal, s, rest)
    | ChannelMsg.Eof => some (Event.Eof, s, rest)
    | ChannelMsg.Other => Session.next s rest

/-- Session::input (session/core.rs): one call to next; an Input event yields
its payload, anything else yields none (the question-mark operator also
propagates the end-of-stream none).  The returned session and remaining
stream make the state passing explicit. -/
def Session.input (s : Session) (msgs : List ChannelMsg) :
    Option (List Nat) × Session × List ChannelMsg :=
  match Session.next s msgs with
  | none => (none, s, [])
  | some (Event.Input data, s2, rest) => (some data, s2, rest)
  | some (_, s2, rest) => (none, s2, rest)

/-- Session::pty (session/core.rs). -/
def Session.pty (s : Session) : Option (String × PtySize) :=
  match s.kind with
  | SessionKind.Pty term size => some (term, size)
  | _ => none

/-- Session::pty_size (session/core.rs): the size component of pty. -/
def Session.pty_size (s : Session) : Option PtySize :=
  (Session.pty s).map Prod.snd

/-- Session::term (session/core.rs): the term component of pty. -/
def Session.term (s : Session) : Option String :=
  (Session.pty s).map Prod.fst

/-- Session::command (session/core.rs): the command, only for Exec kind. -/
def Session.command (s : Session) : Option String :=
  match s.kind with
  | SessionKind.Exec command => some command
  | _ => none

/-- Session::subsystem (session/core.rs): the name, only for Subsystem kind. -/
def Session.subsystem (s : Session) : Option String :=
  match s.kind with
  | SessionKind.Subsystem name => some name
  | _ => none

/-- Session::exit (session/core.rs): store the code.  The source wraps self in
Ok unconditionally; the always-Ok wrapper is elided. -/
def Session.exit (s : Session) (code : Nat) : Session :=
  { s with exit_code := some code }

/-- Session::exit_code (session/core.rs). -/
def Session.exit_code_of (s : Session) : Option Nat :=
  s.exit_code

/-- Session::will_exit (session/core.rs). -/
def Session.will_exit (s : Session) : Bool :=
  s.exit_code.isSome

/-- Session::is_interactive (session/core.rs). -/
def Session.is_interactive (s : Session) : Bool :=
  match s.kind with
  | SessionKind.Pty _ _ => true
  | SessionKind.Shell => true
  | _ => false

/-- Session::do_exit (session/core.rs): when no exit code is stored, return
at once emitting nothing; otherwise emit exit_status, eof and close in that
order.  Transport send failures are out of scope. -/
def Session.do_exit (s : Session) : List WireAction :=
  match s.exit_code with
  | none => []
  | some exit_code => [WireAction.exit_status exit_code, WireAction.eof, WireAction.close]

/-- Session::abort (session/core.rs): store the code, then finalize via
do_exit; the emitted wire actions are returned alongside the session. -/
def Session.abort (s : Session) (code : Nat) : Session × List WireAction :=
  let s2 := { s with exit_code := some code }
  (s2, Session.do_exit s2)

/-- server/russh.rs run_handler: on Ok the spawned task finalizes the returned
session (exit semantics of do_exit: exit_status if set, then eof, then
close); on Err it only logs, emitting nothing.  The emitted wire actions are
the observable outcome. -/
def run_handler (result : Except Error Session) : List WireAction :=
  match result with
  | Except.ok session => Session.do_exit session
  | Except.error _ => []

/-- Opaque public key (russh keys PublicKey), identified by a fingerprint tag. -/
structure PublicKey where
  fingerprint : Nat
deriving DecidableEq

/-- src/src/auth/config.rs: AuthConfig.  The type-erased async verifiers of
auth/password.rs and auth/pubkey.rs are modelled as boolean functions on
owned copies of their arguments. -/
structure AuthConfig where
  password : Option (String → String → Bool)
  pubkey : Option (String → PublicKey → Bool)

/-- AuthConfig::is_empty (auth/config.rs). -/
def AuthConfig.is_empty (c : AuthConfig) : Bool :=
  c.password.isNone && c.pubkey.isNone

/-- russh MethodKind, restricted to the methods the core mentions. -/
inductive MethodKind where
  | Password
  | PublicKey
deriving DecidableEq

/-- AuthConfig::methods (auth/config.rs). -/
def AuthConfig.methods (c : AuthConfig) : List MethodKind :=
  (if c.password.isSome then [MethodKind.Password] else []) ++
    (if c.pubkey.isSome then [MethodKind.PublicKey] else [])

/-- russh server Auth result.  The source always passes partial_success =
false; the field is named partSuccess here. -/
inductive Auth where
  | Accept
  | Reject (proceed_with_methods : Option (List MethodKind)) (partSuccess : Bool)
deriving DecidableEq

/-- src/src/server/russh.rs: ShenronHandler, the per-connection mutable state
of the channel state machine.  The handler reference (type-erased chain) is
shared immutable state and carries no per-connection information, so it is
not part of the modelled state. -/
structure ShenronHandler where
  remote_addr : SocketAddr
  channel : Option Channel
  user : Option String
  auth : AuthConfig
  env : EnvMap
  pty : Option (String × PtySize)
  banner : Option String

/-- server/russh.rs new_client: capture the peer address (0.0.0.0:0 when the
transport reports none) and start with no channel, no user, empty env and no
pending pty. -/
def new_client (auth : AuthConfig) (banner : Option String)
    (addr : Option SocketAddr) : ShenronHandler :=
  { remote_addr := addr.getD { ip := [0, 0, 0, 0], port := 0 },
    channel := none, user := none, auth := auth,
    env := emptyEnv, pty := none, banner := banner }

/-- server/russh.rs channel_open_session: store the channel (the source also
answers true to accept the channel). -/
def channel_open_session (h : ShenronHandler) (channel : Channel) : ShenronHandler :=
  { h with channel := some channel }

/-- server/russh.rs auth_publickey: consult the pubkey verifier when present
(accept records the user; rejection advertises Password); with no verifiers
at all accept anonymously; otherwise return the same rejection value. -/
def auth_publickey (h : ShenronHandler) (user : String) (public_key : PublicKey) :
    Auth × ShenronHandler :=
  let accept := (Auth.Accept, { h with user := some user })
  let rejection := (Auth.Reject (some [MethodKind.Password]) false, h)
  match h.auth.pubkey with
  | some handler => if handler user public_key then accept else rejection
  | none => if h.auth.is_empty then accept else rejection

/-- server/russh.rs auth_password: as auth_publickey but for the password
verifier, with a rejection advertising no further methods. -/
def auth_password (h : ShenronHandler) (user password : String) :
    Auth × ShenronHandler :=
  let accept := (Auth.Accept, { h with user := some user })
  let rejection := (Auth.Reject none false, h)
  match h.auth.password with
  | some handler => if handler user password then accept else rejection
  | none => if h.auth.is_empty then accept else rejection

/-- server/russh.rs env_request: insert into the pending env map. -/
def env_request (h : ShenronHandler) (variable_name variable_value : String) :
    ShenronHandler :=
  { h with env := insertEnv h.env variable_name variable_value }

/-- server/russh.rs pty_request: store the pending pty descriptor (terminal
modes are accepted but not interpreted; the source also answers
channel_success). -/
def pty_request (h : ShenronHandler) (term : String)
    (col_width row_height pix_width pix_height : Nat) : ShenronHandler :=
  { h with pty := some (term,
      { width := col_width, height := row_height,
        pixel_width := pix_width, pixel_height := pix_height }) }

/-- server/russh.rs exec_request: take the stored channel (Protocol error when
absent), decode the payload as the command string (modelled post UTF-8 lossy
decoding), take the pending pty (a pending pty wins and the command is
dropped, else Exec), snapshot the env by move, build the Session and spawn
the handler.  Returns the successor connection state and the new Session. -/
def exec_request (h : ShenronHandler) (data : String) :
    Except Error (ShenronHandler × Session) :=
  match h.channel with
  | none => Except.error (Error.Protocol "No channel available")
  | some channel =>
    let command := data
    let kind :=
      match h.pty with
      | some (term, size) => SessionKind.Pty term size
      | none => SessionKind.Exec command
    let user := h.user.getD "unknown"
    let app_session := Session.new channel kind user h.env h.remote_addr
    Except.ok ({ h with channel := none, pty := none, env := emptyEnv }, app_session)

/-- server/russh.rs shell_request: take the stored channel (Protocol error
when absent), take the pending pty (pending pty wins, else Shell), snapshot
the env by move, build the Session and spawn the handler. -/
def shell_request (h : ShenronHandler) :
    Except Error (ShenronHandler × Session) :=
  match h.channel with
  | none => Except.error (Error.Protocol "No channel available")
  | some channel =>
    let kind :=
      match h.pty with
      | some (term, size) => SessionKind.Pty term size
      | none => SessionKind.Shell
    let user := h.user.getD "unknown"
    let app_session := Session.new channel kind user h.env h.remote_addr
    Except.ok ({ h with channel := none, pty := none, env := emptyEnv }, app_session)

/-- server/russh.rs subsystem_request: take the stored channel (Protocol error
when absent), kind Subsystem with the request name, snapshot the env by
move, build the Session and spawn the handler. -/
def subsystem_request (h : ShenronHandler) (name : String) :
    Except Error (ShenronHandler × Session) :=
  match h.channel with
  | none => Except.error (Error.Protocol "No channel available")
  | some channel =>
    let user := h.user.getD "unknown"
    let app_session :=
      Session.new channel (SessionKind.Subsystem name) user h.env h.remote_addr
    Except.ok ({ h with channel := none, env := emptyEnv }, app_session)

/-- The state-mutating operations available on a Session after promotion.
exit and abort store the exit code; pump runs Session.next on a message
stream (input delegates to next).  Writers and introspectors take the
session by shared reference in the source and cannot mutate it, so they do
not appear. -/
inductive SessionOp where
  | exitOp (code : Nat)
  | abortOp (code : Nat)
  | pump (msgs : List ChannelMsg)

/-- Apply one Session operation to the session state. -/
def applyOp (s : Session) : SessionOp → Session
  | SessionOp.exitOp code => Session.exit s code
  | SessionOp.abortOp code => (Session.abort s code).1
  | SessionOp.pump msgs =>
    match Session.next s msgs with
    | some (_, s2, _) => s2
    | none => s

/-- src/src/middleware/chain.rs build_chain: start from the terminal handler
and wrap it with each middleware in reverse list order, so the first
middleware becomes the outermost layer.  A type-erased handler is a function
from session to result; a type-erased middleware receives the session and
the continuation into the rest of the chain (MiddlewareHandler::call passes
its stored next chain as that continuation).  The parameter spelling
middlware follows the source. -/
def build_chain {S R : Type} (handler : S → R)
    (middlware : List (S → (S → R) → R)) : S → R :=
  middlware.reverse.foldl (fun chain mw => fun session => mw session chain) handler

/-- Instrumented middleware used to observe call order through the chain: it
records a pre mark, runs the continuation, then records a post mark. -/
def traceMw {S : Type} (label : String) :
    S → (S → List String × S) → List String × S :=
  fun session k =>
    let r := k session
    ((label ++ "-pre") :: r.1 ++ [label ++ "-post"], r.2)

/-- Instrumented terminal handler: records H and returns the session unchanged. -/
def traceHandler {S : Type} : S → List String × S :=
  fun session => (["H"], session)

/-! Concrete values used by witnesses and counterexamples. -/

/-- A concrete peer address. -/
def addrDemo : SocketAddr := { ip := [127, 0, 0, 1], port := 2222 }

/-- A concrete 80 by 24 pty size. -/
def ptySizeDemo : PtySize :=
  { width := 80, height := 24, pixel_width := 0, pixel_height := 0 }

/-- A concrete 100 by 40 pty size. -/
def pz100 : PtySize :=
  { width := 100, height := 40, pixel_width := 0, pixel_height := 0 }

/-- A concrete Shell session. -/
def sessionShell : Session :=
  Session.new { id := 0 } SessionKind.Shell "u" emptyEnv addrDemo

/-- A concrete Pty session at 80 by 24. -/
def sessionPty : Session :=
  Session.new { id := 1 } (SessionKind.Pty "xterm" ptySizeDemo) "u" emptyEnv addrDemo

/-- The session sessionPty after a window change to 100 by 40. -/
def sessionPtyResized : Session :=
  { sessionPty with kind := SessionKind.Pty "xterm" pz100 }

/-- A connection whose auth config has a pubkey verifier accepting everything. -/
def hPubTrue : ShenronHandler :=
  { remote_addr := addrDemo, channel := none, user := none,
    auth := { password := none, pubkey := some (fun _ _ => true) },
    env := emptyEnv, pty := none, banner := none }

/-- A connection whose auth config has only a password verifier. -/
def hPasswordOnly : ShenronHandler :=
  { remote_addr := addrDemo, channel := none, user := none,
    auth := { password := some (fun _ _ => false), pubkey := none },
    env := emptyEnv, pty := none, banner := none }

/-- A connection after channel-open on channel 5 and one env request. -/
def connDemo : ShenronHandler :=
  [("K", "V")].foldl (fun acc p => env_request acc p.1 p.2)
    (channel_open_session (new_client { password := none, pubkey := none } none none)
      { id := 5 })

/-- The connection state left behind by exec_request on connDemo. -/
def connDemoAfter : ShenronHandler :=
  { connDemo with channel := none, pty := none, env := emptyEnv }

/-- The session produced by exec_request on connDemo with payload cmd. -/
def sessDemoPromoted : Session :=
  Session.new { id := 5 } (SessionKind.Exec "cmd") "unknown"
    (insertEnv emptyEnv "K" "V") { ip := [0, 0, 0, 0], port := 0 }

/-- A connection after channel-open on channel 9 and a pty request. -/
def connPtyDemo : ShenronHandler :=
  pty_request
    (channel_open_session (new_client { password := none, pubkey := none } none none)
      { id := 9 })
    "xterm" 80 24 0 0

/-- The connection state left behind by exec_request on connPtyDemo. -/
def connPtyDemoAfter : ShenronHandler :=
  { connPtyDemo with channel := none, pty := none, env := emptyEnv }

/-- The session produced by exec_request on connPtyDemo. -/
def sessPtyDemo : Session :=
  Session.new { id := 9 } (SessionKind.Pty "xterm" ptySizeDemo) "unknown"
    emptyEnv { ip := [0, 0, 0, 0], port := 0 }

/-- A pass-through middleware on Nat sessions. -/
def passMw : Nat → (Nat → Nat) → Nat := fun s k => k s

/-! Helper lemmas. -/

/-- The event pump only ever touches the kind field: every other Session
field survives Session.next unchanged. -/
lemma next_fields (s : Session) : ∀ (msgs : List ChannelMsg) (e : Event)
    (s2 : Session) (rest : List ChannelMsg),
    Session.next s msgs = some (e, s2, rest) →
      s2.exit_code = s.exit_code ∧ s2.remote_addr = s.remote_addr ∧
        s2.user = s.user ∧ s2.env = s.env ∧ s2.channel = s.channel := by
  intro msgs
  induction msgs with
  | nil =>
    intro e s2 rest h
    simp [Session.next] at h
  | cons msg tl ih =>
    intro e s2 rest h
    cases msg with
    | Data d =>
      simp only [Session.next, Option.some.injEq, Prod.mk.injEq] at h
      obtain ⟨-, h2, -⟩ := h
      subst h2
      exact ⟨rfl, rfl, rfl, rfl, rfl⟩
    | WindowChange c r pw ph =>
      simp only [Session.next, Option.some.injEq, Prod.mk.injEq] at h
      obtain ⟨-, h2, -⟩ := h
      subst h2
      cases hk : s.kind <;> simp [hk]
    | Signal sig =>
      simp only [Session.next, Option.some.injEq, Prod.mk.injEq] at h
      obtain ⟨-, h2, -⟩ := h
      subst h2
      exact ⟨rfl, rfl, rfl, rfl, rfl⟩
    | Eof =>
      simp only [Session.next, Option.some.injEq, Prod.mk.injEq] at h
      obtain ⟨-, h2, -⟩ := h
      subst h2
      exact ⟨rfl, rfl, rfl, rfl, rfl⟩
    | Other =>
      simp only [Session.next] at h
      exact ih e s2 rest h

/-- Folding env_request over a request list never touches the channel. -/
lemma foldl_env_request_channel (es : List (String × String)) :
    ∀ h : ShenronHandler,
      (es.foldl (fun acc p => env_request acc p.1 p.2) h).channel = h.channel := by
  induction es with
  | nil => intro h; rfl
  | cons p es ih => intro h; rw [List.foldl_cons, ih]; rfl

/-- Folding env_request over a request list inserts exactly those bindings. -/
lemma foldl_env_request_env (es : List (String × String)) :
    ∀ h : ShenronHandler,
      (es.foldl (fun acc p => env_request acc p.1 p.2) h).env =
        es.foldl (fun m p => insertEnv m p.1 p.2) h.env := by
  induction es with
  | nil => intro h; rfl
  | cons p es ih => intro h; rw [List.foldl_cons, List.foldl_cons, ih]; rfl

/-- Folding env_request over a request list never touches the remote address. -/
lemma foldl_env_request_addr (es : List (String × String)) :
    ∀ h : ShenronHandler,
      (es.foldl (fun acc p => env_request acc p.1 p.2) h).remote_addr = h.remote_addr := by
  induction es with
  | nil => intro h; rfl
  | cons p es ih => intro h; rw [List.foldl_cons, ih]; rfl

/-- build_chain on a cons wraps the chain of the tail with the head. -/
lemma build_chain_cons {S R : Type} (handler : S → R)
    (m : S → (S → R) → R) (ms : List (S → (S → R) → R)) (s : S) :
    build_chain handler (m :: ms) s = m s (build_chain handler ms) := by
  simp [build_chain, List.foldl_append]

/-- A chain of pass-through middleware behaves as the bare handler. -/
lemma build_chain_pass {S R : Type} (handler : S → R) :
    ∀ ms : List (S → (S → R) → R),
      (∀ mw ∈ ms, ∀ t k, mw t k = k t) →
        ∀ s, build_chain handler ms s = handler s := by
  intro ms
  induction ms with
  | nil => intro _ s; rfl
  | cons m ms ih =>
    intro hid s
    rw [build_chain_cons, hid m (List.mem_cons_self m ms)]
    exact ih (fun mw hmw => hid mw (List.mem_cons_of_mem m hmw)) s

/-- Every single Session operation keeps exit_code present once present. -/
lemma applyOp_keeps_exit (s : Session) (op : SessionOp)
    (h : s.exit_code.isSome = true) : ((applyOp s op).exit_code).isSome = true := by
  cases op with
  | exitOp c => simp [applyOp, Session.exit]
  | abortOp c => simp [applyOp, Session.abort]
  | pump msgs =>
    simp only [applyOp]
    cases hn : Session.next s msgs with
    | none => exact h
    | some t =>
      obtain ⟨e, s2, rest⟩ := t
      have hf := (next_fields s msgs e s2 rest hn).1
      simpa [hf] using h

/-! Claim theorems. -/

/-- C1 counterexample: with a password verifier configured but no public-key
verifier, auth_publickey rejects advertising proceed_with_methods =
\x7bPassword\x7d, not (as the claim states) with no further methods. -/
theorem auth_publickey_otherwise_advertises_password :
    (auth_publickey hPasswordOnly "bob" { fingerprint := 0 }).1
      = Auth.Reject (some [MethodKind.Password]) false ∧
    (auth_publickey hPasswordOnly "bob" { fingerprint := 0 }).1
      ≠ Auth.Reject none false := by
  exact ⟨rfl, by decide⟩

/-- C1 (amended): auth_publickey dispatch.  A configured pubkey verifier that
accepts records the user and Accepts; one that refuses Rejects advertising
Password; with no verifiers at all the user is recorded and Accepted
(anonymous mode); otherwise (a password verifier but no pubkey verifier) the
result is the same Reject advertising Password. -/
theorem auth_publickey_dispatch (h : ShenronHandler) (user : String)
    (key : PublicKey) :
    (∀ v, h.auth.pubkey = some v → v user key = true →
      auth_publickey h user key = (Auth.Accept, { h with user := some user })) ∧
    (∀ v, h.auth.pubkey = some v → v user key = false →
      auth_publickey h user key =
        (Auth.Reject (some [MethodKind.Password]) false, h)) ∧
    (h.auth.pubkey = none → h.auth.password = none →
      auth_publickey h user key = (Auth.Accept, { h with user := some user })) ∧
    (h.auth.pubkey = none → ∀ p, h.auth.password = some p →
      auth_publickey h user key =
        (Auth.Reject (some [MethodKind.Password]) false, h)) := by
  refine ⟨?_, ?_, ?_, ?_⟩
  · intro v hv htrue
    simp [auth_publickey, hv, htrue]
  · intro v hv hfalse
    simp [auth_publickey, hv, hfalse]
  · intro h1 h2
    simp [auth_publickey, h1, AuthConfig.is_empty, h2]
  · intro h1 p hp
    simp [auth_publickey, h1, AuthConfig.is_empty, hp]

/-- C1 witness: the dispatch theorem applied to an accept-all pubkey verifier. -/
theorem auth_publickey_dispatch_witness :
    auth_publickey hPubTrue "alice" { fingerprint := 7 } =
      (Auth.Accept, { hPubTrue with user := some "alice" }) :=
  (auth_publickey_dispatch hPubTrue "alice" { fingerprint := 7 }).1
    (fun _ _ => true) rfl rfl

/-- C2 counterexample: a handler chain returning Ok with no exit code set is
finalized by emitting nothing at all: neither end-of-file nor close is sent,
contradicting the claim that they happen regardless of the exit code. -/
theorem do_exit_skips_eof_close_when_unset :
    run_handler (Except.ok sessionShell) = [] ∧
    WireAction.eof ∉ run_handler (Except.ok sessionShell) ∧
    WireAction.close ∉ run_handler (Except.ok sessionShell) := by
  refine ⟨rfl, ?_, ?_⟩ <;> simp [run_handler, sessionShell, Session.new, Session.do_exit]

/-- C2 (amended): when the handler chain returns Ok with an exit code set,
the core emits exit-status, then end-of-file, then close, in that order;
when no exit code is set it emits nothing (do_exit returns at once); an Err
result only logs and emits nothing. -/
theorem run_handler_finalization (s : Session) :
    (∀ code, s.exit_code = some code →
      run_handler (Except.ok s) =
        [WireAction.exit_status code, WireAction.eof, WireAction.close]) ∧
    (s.exit_code = none → run_handler (Except.ok s) = []) ∧
    (∀ e, run_handler (Except.error e) = []) := by
  refine ⟨?_, ?_, fun e => rfl⟩
  · intro code hc
    simp [run_handler, Session.do_exit, hc]
  · intro hc
    simp [run_handler, Session.do_exit, hc]

/-- C2 witness: the finalization theorem applied to a session with exit code 0. -/
theorem run_handler_finalization_witness :
    run_handler (Except.ok (Session.exit sessionShell 0)) =
      [WireAction.exit_status 0, WireAction.eof, WireAction.close] :=
  (run_handler_finalization (Session.exit sessionShell 0)).1 0 rfl

/-- C3: the event pump.  next yields Input for data frames, Signal for signal
messages, Eof for end-of-input, skips every other protocol message and loops,
and returns none at end of stream (channel closed); a window-change yields
Resize and, when the session kind is Pty, also refreshes the cached size so
that pty_size afterwards equals the new size. -/
theorem next_event_pump (s : Session) (d : List Nat) (sig : Signal)
    (c r pw ph : Nat) (rest : List ChannelMsg) :
    Session.next s [] = none ∧
    Session.next s (ChannelMsg.Data d :: rest) = some (Event.Input d, s, rest) ∧
    Session.next s (ChannelMsg.Signal sig :: rest)
      = some (Event.Signal sig, s, rest) ∧
    Session.next s (ChannelMsg.Eof :: rest) = some (Event.Eof, s, rest) ∧
    Session.next s (ChannelMsg.Other :: rest) = Session.next s rest ∧
    ∀ e s2 rest2,
      Session.next s (ChannelMsg.WindowChange c r pw ph :: rest)
        = some (e, s2, rest2) →
      e = Event.Resize { width := c, height := r, pixel_width := pw,
                         pixel_height := ph } ∧
      rest2 = rest ∧
      ((Session.pty_size s).isSome = true →
        Session.pty_size s2 = some { width := c, height := r, pixel_width := pw,
                                     pixel_height := ph }) := by
  refine ⟨rfl, rfl, rfl, rfl, rfl, ?_⟩
  intro e s2 rest2 hEq
  simp only [Session.next, Option.some.injEq, Prod.mk.injEq] at hEq
  obtain ⟨he, hs2, hr⟩ := hEq
  subst he
  subst hr
  refine ⟨rfl, rfl, ?_⟩
  intro hpty
  subst hs2
  cases hk : s.kind with
  | Pty term size => simp [Session.pty_size, Session.pty, hk]
  | Exec command => simp [Session.pty_size, Session.pty, hk] at hpty
  | Shell => simp [Session.pty_size, Session.pty, hk] at hpty
  | Subsystem name => simp [Session.pty_size, Session.pty, hk] at hpty

/-- C3 witness: pumping a window change on a concrete Pty session refreshes
the cached size to the announced one. -/
theorem next_event_pump_witness :
    (Session.pty_size sessionPty).isSome = true ∧
    Session.pty_size sessionPtyResized = some pz100 :=
  ⟨rfl,
    ((next_event_pump sessionPty [] { name := "INT" } 100 40 0 0 []).2.2.2.2.2
      (Event.Resize pz100) sessionPtyResized [] rfl).2.2 rfl⟩

/-- C4: middleware composition.  The chain assembled by build_chain applied
to a session equals the nested invocation with the first middleware
outermost; with only pass-through layers the session reaches the handler
unchanged (identity preserving); and for an instrumented chain of two layers
around an instrumented handler the observed call order is A-pre, B-pre, H,
B-post, A-post with the session value threaded through untouched. -/
theorem build_chain_composition {S R : Type} (handler : S → R)
    (m : S → (S → R) → R) (ms : List (S → (S → R) → R)) (s : S) :
    build_chain handler [] s = handler s ∧
    build_chain handler (m :: ms) s = m s (build_chain handler ms) ∧
    ((∀ mw ∈ m :: ms, ∀ t k, mw t k = k t) →
      build_chain handler (m :: ms) s = handler s) ∧
    build_chain traceHandler [traceMw "A", traceMw "B"] s =
      (["A-pre", "B-pre", "H", "B-post", "A-post"], s) := by
  refine ⟨rfl, build_chain_cons handler m ms s, ?_, ?_⟩
  · intro hid
    exact build_chain_pass handler (m :: ms) hid s
  · rfl

/-- C4 witness: the composition theorem applied to a concrete pass-through
chain over Nat sessions. -/
theorem build_chain_composition_witness :
    (∀ mw ∈ [passMw], ∀ t k, mw t k = k t) ∧
    build_chain (fun n : Nat => n + 1) [passMw] 3 = 4 :=
  ⟨fun mw hmw t k => by
      simp only [List.mem_singleton] at hmw
      subst hmw
      rfl,
    (build_chain_composition (fun n : Nat => n + 1) passMw [] 3).2.2.1
      (fun mw hmw t k => by
        simp only [List.mem_singleton] at hmw
        subst hmw
        rfl)⟩

/-- C5 counterexample: input does not filter past non-input events.  On a
stream whose first event is a window change and whose second is a data
frame, input returns none even though the stream is not at end (next on the
remaining stream still yields that Input frame). -/
theorem input_returns_none_on_noninput :
    (Session.input sessionShell
      [ChannelMsg.WindowChange 1 1 0 0, ChannelMsg.Data [97]]).1 = none ∧
    Session.next sessionShell [ChannelMsg.Data [97]]
      = some (Event.Input [97], sessionShell, []) :=
  ⟨rfl, rfl⟩

/-- C5 (amended): input performs a single step of the pump: it returns the
payload when the next event is an Input frame, and none both at end of
stream and when the next event is any non-input event (which is consumed and
discarded, without looping on to a later Input frame). -/
theorem input_single_step (s : Session) (msgs : List ChannelMsg) :
    (Session.next s msgs = none → Session.input s msgs = (none, s, [])) ∧
    (∀ d s2 rest, Session.next s msgs = some (Event.Input d, s2, rest) →
      Session.input s msgs = (some d, s2, rest)) ∧
    (∀ e s2 rest, Session.next s msgs = some (e, s2, rest) →
      (∀ d, e ≠ Event.Input d) → Session.input s msgs = (none, s2, rest)) := by
  refine ⟨?_, ?_, ?_⟩
  · intro h
    simp [Session.input, h]
  · intro d s2 rest h
    simp [Session.input, h]
  · intro e s2 rest h hne
    cases e with
    | Input d => exact (hne d rfl).elim
    | Resize size => simp [Session.input, h]
    | Signal sig => simp [Session.input, h]
    | Eof => simp [Session.input, h]

/-- C5 witness: the single-step theorem applied to a stream starting with an
end-of-input event. -/
theorem input_single_step_witness :
    Session.input sessionShell [ChannelMsg.Eof] = (none, sessionShell, []) :=
  (input_single_step sessionShell [ChannelMsg.Eof]).2.2 Event.Eof sessionShell []
    rfl (fun _ h => Event.noConfusion h)

/-- C6 counterexample: a second exit call overwrites the stored exit code, so
exit_code is not write-once as the claim states. -/
theorem exit_code_overwritten :
    (Session.exit (Session.exit sessionShell 1) 2).exit_code = some 2 ∧
    (some 2 : Option Nat) ≠ some 1 :=
  ⟨rfl, by decide⟩

/-- C6 (amended): exit_code, once set, is never cleared: every sequence of
Session operations leaves it set (the pump never touches it, and exit and
abort only store a fresh value, possibly overwriting the old one). -/
theorem exit_code_never_cleared (s : Session) (ops : List SessionOp) :
    (s.exit_code.isSome = true →
      ((ops.foldl applyOp s).exit_code).isSome = true) ∧
    (∀ msgs, (applyOp s (SessionOp.pump msgs)).exit_code = s.exit_code) ∧
    (∀ c, (applyOp s (SessionOp.exitOp c)).exit_code = some c) ∧
    (∀ c, (applyOp s (SessionOp.abortOp c)).exit_code = some c) := by
  refine ⟨?_, ?_, fun c => rfl, fun c => rfl⟩
  · have : ∀ (l : List SessionOp) (t : Session), t.exit_code.isSome = true →
        ((l.foldl applyOp t).exit_code).isSome = true := by
      intro l
      induction l with
      | nil => intro t h; exact h
      | cons op l ih =>
        intro t h
        exact ih (applyOp t op) (applyOp_keeps_exit t op h)
    exact this ops s
  · intro msgs
    simp only [applyOp]
    cases hn : Session.next s msgs with
    | none => rfl
    | some t =>
      obtain ⟨e, s2, rest⟩ := t
      exact (next_fields s msgs e s2 rest hn).1

/-- C6 witness: after exit 7, pumping an end-of-input event leaves the exit
code present. -/
theorem exit_code_never_cleared_witness :
    (Session.exit sessionShell 7).exit_code.isSome = true ∧
    ((([SessionOp.pump [ChannelMsg.Eof]].foldl applyOp
        (Session.exit sessionShell 7))).exit_code).isSome = true :=
  ⟨rfl,
    (exit_code_never_cleared (Session.exit sessionShell 7)
      [SessionOp.pump [ChannelMsg.Eof]]).1 rfl⟩

/-- C7: env snapshot at promotion.  Starting from a fresh connection, after
channel-open and any sequence of env requests, a successful exec_request
hands the session exactly the accumulated bindings, and the connection
adapter is left with an empty env map (the snapshot is taken by move), so
later env requests on the connection cannot appear in this session's env. -/
theorem env_snapshot_at_promotion (auth : AuthConfig) (banner : Option String)
    (addr : Option SocketAddr) (ch : Channel) (es : List (String × String))
    (data : String) :
    ∀ h2 sess,
      exec_request
        (es.foldl (fun acc p => env_request acc p.1 p.2)
          (channel_open_session (new_client auth banner addr) ch)) data
        = Except.ok (h2, sess) →
      sess.env = es.foldl (fun m p => insertEnv m p.1 p.2) emptyEnv ∧
      h2.env = emptyEnv := by
  intro h2 sess hok
  have hch := foldl_env_request_channel es
    (channel_open_session (new_client auth banner addr) ch)
  have henv := foldl_env_request_env es
    (channel_open_session (new_client auth banner addr) ch)
  rw [show (channel_open_session (new_client auth banner addr) ch).channel
      = some ch from rfl] at hch
  rw [show (channel_open_session (new_client auth banner addr) ch).env
      = emptyEnv from rfl] at henv
  simp only [exec_request, hch, Except.ok.injEq, Prod.mk.injEq] at hok
  obtain ⟨hh2, hsess⟩ := hok
  subst hh2
  subst hsess
  exact ⟨henv, rfl⟩

/-- C7 witness: the snapshot theorem applied to a concrete connection with one
accumulated env request. -/
theorem env_snapshot_at_promotion_witness :
    sessDemoPromoted.env
      = [("K", "V")].foldl (fun m p => insertEnv m p.1 p.2) emptyEnv ∧
    connDemoAfter.env = emptyEnv :=
  env_snapshot_at_promotion { password := none, pubkey := none } none none
    { id := 5 } [("K", "V")] "cmd" connDemoAfter sessDemoPromoted rfl

/-- C8: an exec request promoting a channel with a pending pty descriptor
produces a session of kind Pty with the pending terminal and size, and its
command is none (the decoded command string is discarded); with no pending
pty the session has kind Exec carrying the decoded command. -/
theorem exec_with_pending_pty (h : ShenronHandler) (data term : String)
    (size : PtySize) :
    ∀ h2 sess, exec_request h data = Except.ok (h2, sess) →
      (h.pty = some (term, size) →
        sess.kind = SessionKind.Pty term size ∧ Session.command sess = none) ∧
      (h.pty = none →
        sess.kind = SessionKind.Exec data ∧
          Session.command sess = some data) := by
  intro h2 sess hok
  cases hch : h.channel with
  | none => simp [exec_request, hch] at hok
  | some ch =>
    simp only [exec_request, hch, Except.ok.injEq, Prod.mk.injEq] at hok
    obtain ⟨-, hsess⟩ := hok
    constructor
    · intro hp
      rw [hp] at hsess
      subst hsess
      exact ⟨rfl, rfl⟩
    · intro hp
      rw [hp] at hsess
      subst hsess
      exact ⟨rfl, rfl⟩

/-- C8 witness: the pending-pty theorem applied to a concrete connection with
a stored channel and a pending xterm 80 by 24 pty. -/
theorem exec_with_pending_pty_witness :
    connPtyDemo.pty = some ("xterm", ptySizeDemo) ∧
    sessPtyDemo.kind = SessionKind.Pty "xterm" ptySizeDemo ∧
    Session.command sessPtyDemo = none :=
  ⟨rfl,
    (exec_with_pending_pty connPtyDemo "ls" "xterm" ptySizeDemo
      connPtyDemoAfter sessPtyDemo rfl).1 rfl⟩

/-- C9: each promoting request (exec, shell, subsystem) returns the Protocol
error exactly when no channel is stored on the connection; on success the
stored channel is consumed, so an immediately following promoting request
without a new channel-open fails with the same Protocol error. -/
theorem promoting_requires_channel (h : ShenronHandler) (data name : String) :
    (exec_request h data = Except.error (Error.Protocol "No channel available")
      ↔ h.channel = none) ∧
    (shell_request h = Except.error (Error.Protocol "No channel available")
      ↔ h.channel = none) ∧
    (subsystem_request h name
        = Except.error (Error.Protocol "No channel available")
      ↔ h.channel = none) ∧
    (∀ h2 sess, exec_request h data = Except.ok (h2, sess) →
      h2.channel = none ∧
      exec_request h2 data
        = Except.error (Error.Protocol "No channel available") ∧
      shell_request h2 = Except.error (Error.Protocol "No channel available") ∧
      subsystem_request h2 name
        = Except.error (Error.Protocol "No channel available")) ∧
    (∀ h2 sess, shell_request h = Except.ok (h2, sess) → h2.channel = none) ∧
    (∀ h2 sess, subsystem_request h name = Except.ok (h2, sess) →
      h2.channel = none) := by
  cases hch : h.channel with
  | none =>
    refine ⟨?_, ?_, ?_, ?_, ?_, ?_⟩ <;>
      simp [exec_request, shell_request, subsystem_request, hch]
  | some ch =>
    refine ⟨?_, ?_, ?_, ?_, ?_, ?_⟩
    · simp [exec_request, hch]
    · simp [shell_request, hch]
    · simp [subsystem_request, hch]
    · intro h2 sess hok
      simp only [exec_request, hch, Except.ok.injEq, Prod.mk.injEq] at hok
      obtain ⟨hh2, -⟩ := hok
      subst hh2
      exact ⟨rfl, rfl, rfl, rfl⟩
    · intro h2 sess hok
      simp only [shell_request, hch, Except.ok.injEq, Prod.mk.injEq] at hok
      obtain ⟨hh2, -⟩ := hok
      subst hh2
      rfl
    · intro h2 sess hok
      simp only [subsystem_request, hch, Except.ok.injEq, Prod.mk.injEq] at hok
      obtain ⟨hh2, -⟩ := hok
      subst hh2
      rfl

/-- C9 witness: a promoting request on a fresh connection (no stored channel)
fails with the Protocol error, and after a successful promotion on connDemo a
second exec fails the same way. -/
theorem promoting_requires_channel_witness :
    exec_request (new_client { password := none, pubkey := none } none none) "x"
      = Except.error (Error.Protocol "No channel available") ∧
    connDemoAfter.channel = none ∧
    exec_request connDemoAfter "cmd"
      = Except.error (Error.Protocol "No channel available") :=
  ⟨(promoting_requires_channel
      (new_client { password := none, pubkey := none } none none) "x" "sftp").1.2
      rfl,
    ((promoting_requires_channel connDemo "cmd" "sftp").2.2.2.1
      connDemoAfter sessDemoPromoted rfl).1,
    ((promoting_requires_channel connDemo "cmd" "sftp").2.2.2.1
      connDemoAfter sessDemoPromoted rfl).2.1⟩

/-- C10: the peer address is captured at accept time (new_client), defaulting
to 0.0.0.0:0 when the transport reports none; every connection-level request
preserves it, every session built by a promoting request carries it, and no
Session operation changes it afterwards. -/
theorem remote_addr_captured_at_accept (auth : AuthConfig)
    (banner : Option String) (a : SocketAddr) (h : ShenronHandler)
    (ch : Channel) (key : PublicKey) (n v term data name pw2 : String)
    (cw rh pxw pxh : Nat) (s : Session) (op : SessionOp) :
    (new_client auth banner (some a)).remote_addr = a ∧
    (new_client auth banner none).remote_addr = { ip := [0, 0, 0, 0], port := 0 } ∧
    (channel_open_session h ch).remote_addr = h.remote_addr ∧
    (env_request h n v).remote_addr = h.remote_addr ∧
    (pty_request h term cw rh pxw pxh).remote_addr = h.remote_addr ∧
    (auth_publickey h n key).2.remote_addr = h.remote_addr ∧
    (auth_password h n pw2).2.remote_addr = h.remote_addr ∧
    (∀ h2 sess, exec_request h data = Except.ok (h2, sess) →
      sess.remote_addr = h.remote_addr ∧ h2.remote_addr = h.remote_addr) ∧
    (∀ h2 sess, shell_request h = Except.ok (h2, sess) →
      sess.remote_addr = h.remote_addr ∧ h2.remote_addr = h.remote_addr) ∧
    (∀ h2 sess, subsystem_request h name = Except.ok (h2, sess) →
      sess.remote_addr = h.remote_addr ∧ h2.remote_addr = h.remote_addr) ∧
    (applyOp s op).remote_addr = s.remote_addr := by
  refine ⟨rfl, rfl, rfl, rfl, rfl, ?_, ?_, ?_, ?_, ?_, ?_⟩
  · cases hv : h.auth.pubkey with
    | none =>
      simp only [auth_publickey, hv]
      by_cases he : h.auth.is_empty <;> simp [he]
    | some verifier =>
      simp only [auth_publickey, hv]
      by_cases he : verifier n key <;> simp [he]
  · cases hv : h.auth.password with
    | none =>
      simp only [auth_password, hv]
      by_cases he : h.auth.is_empty <;> simp [he]
    | some verifier =>
      simp only [auth_password, hv]
      by_cases he : verifier n pw2 <;> simp [he]
  · intro h2 sess hok
    cases hch : h.channel with
    | none => simp [exec_request, hch] at hok
    | some c =>
      simp only [exec_request, hch, Except.ok.injEq, Prod.mk.injEq] at hok
      obtain ⟨hh2, hsess⟩ := hok
      subst hh2
      subst hsess
      exact ⟨rfl, rfl⟩
  · intro h2 sess hok
    cases hch : h.channel with
    | none => simp [shell_request, hch] at hok
    | some c =>
      simp only [shell_request, hch, Except.ok.injEq, Prod.mk.injEq] at hok
      obtain ⟨hh2, hsess⟩ := hok
      subst hh2
      subst hsess
      exact ⟨rfl, rfl⟩
  · intro h2 sess hok
    cases hch : h.channel with
    | none => simp [subsystem_request, hch] at hok
    | some c =>
      simp only [subsystem_request, hch, Except.ok.injEq, Prod.mk.injEq] at hok
      obtain ⟨hh2, hsess⟩ := hok
      subst hh2
      subst hsess
      exact ⟨rfl, rfl⟩
  · cases op with
    | exitOp c => rfl
    | abortOp c => rfl
    | pump msgs =>
      simp only [applyOp]
      cases hn : Session.next s msgs with
      | none => rfl
      | some t =>
        obtain ⟨e, s2, rest⟩ := t
        exact (next_fields s msgs e s2 rest hn).2.1

/-- C10 witness: the capture theorem applied to a concrete accepted address
and the concrete promotion on connDemo. -/
theorem remote_addr_captured_at_accept_witness :
    (new_client { password := none, pubkey := none } none (some addrDemo)).remote_addr
      = addrDemo ∧
    sessDemoPromoted.remote_addr = connDemo.remote_addr ∧
    connDemoAfter.remote_addr = connDemo.remote_addr :=
  ⟨(remote_addr_captured_at_accept { password := none, pubkey := none } none
      addrDemo connDemo { id := 5 } { fingerprint := 0 } "n" "v" "t" "cmd" "s"
      "p" 0 0 0 0 sessionShell (SessionOp.exitOp 0)).1,
    (remote_addr_captured_at_accept { password := none, pubkey := none } none
      addrDemo connDemo { id := 5 } { fingerprint := 0 } "n" "v" "t" "cmd" "s"
      "p" 0 0 0 0 sessionShell (SessionOp.exitOp 0)).2.2.2.2.2.2.2.1
      connDemoAfter sessDemoPromoted rfl⟩

end Shenron
